import Mathlib

set_option autoImplicit false

namespace RollupCss

/-! ## Generic helpers modelling JavaScript string/list primitives -/

/-- Boolean test that `l` starts with `pre` (models `String.prototype.startsWith`
and `RegExp` anchors used in the source). -/
def listStartsWith : (l pre : List Char) → Bool
  | _, [] => true
  | [], _ :: _ => false
  | c :: cs, p :: ps => c == p && listStartsWith cs ps

/-- String version of `listStartsWith`. -/
def strStartsWith (s pre : String) : Bool := listStartsWith s.data pre.data

/-- Boolean test that `l` ends with `suf` (models `RegExp` patterns of the form
`/pat$/` used to key the built-in css processors). -/
def listEndsWith (l suf : List Char) : Bool := listStartsWith l.reverse suf.reverse

/-- String version of `listEndsWith`. -/
def strEndsWith (s suf : String) : Bool := listEndsWith s.data suf.data

/-- Models JavaScript `Array.prototype.join(sep)`. -/
def jsJoin (sep : String) : List String → String
  | [] => ""
  | [x] => x
  | x :: y :: rest => x ++ sep ++ jsJoin sep (y :: rest)

/-- Embeds `normalizePathSlashes` from `src/normalizePathSlashes.ts`: paths with
the Windows extended-length marker are returned unchanged, otherwise every
backslash is replaced by a forward slash. -/
def normalizePathSlashes (p : String) : String :=
  if strStartsWith p "\\\\?\\" then p
  else String.mk (p.data.map (fun c => if c == '\\' then '/' else c))

/-! ## Data model: `CssInputItem` (src/types.ts) -/

/-- Embeds the `CssInputItem` interface of `src/types.ts`: one dependency found
while single-file bundling a css file.  The optional fields model the optional
TypeScript properties (`none` is an absent property). -/
structure CssInputItem where
  path : String
  external : Bool
  inlined : Option Bool := none
  placeholder : Option String := none
deriving Repr, DecidableEq

/-- The base64url alphabet used by Node `Buffer.toString` with the encoding
string used in `runEsbuild` of `src/esbuild.ts`. -/
def base64urlAlphabet : List Char :=
  "ABCDEFGHIJKLMNOPQRSTUVWXYZabcdefghijklmnopqrstuvwxyz0123456789-_".data

/-- One base64url digit. -/
def base64Char (n : Nat) : Char := base64urlAlphabet.getD n 'A'

/-- base64url encoding (no padding, as Node produces for the `base64url`
encoding) over a byte list. -/
def base64urlEncode : List Nat → List Char
  | [] => []
  | [b1] => [base64Char (b1 / 4), base64Char (b1 % 4 * 16)]
  | [b1, b2] =>
    [base64Char (b1 / 4), base64Char (b1 % 4 * 16 + b2 / 16), base64Char (b2 % 16 * 4)]
  | b1 :: b2 :: b3 :: rest =>
    base64Char (b1 / 4) :: base64Char (b1 % 4 * 16 + b2 / 16) ::
      base64Char (b2 % 16 * 4 + b3 / 64) :: base64Char (b3 % 64) :: base64urlEncode rest

/-- Embeds the placeholder construction of `runEsbuild` (src/esbuild.ts):
an underscore followed by the base64url encoding of the utf-8 bytes of the
resolved path. -/
def mkPlaceholder (path : String) : String :=
  "_" ++ String.mk (base64urlEncode (path.toUTF8.toList.map UInt8.toNat))

/-- Embeds the `AssetsInline` option shape from `src/types.ts`.  `RegExp`
matchers and predicate functions both collapse to `String → Bool` (the regex
engine is an external collaborator). -/
inductive AssetsInline where
  | custom (f : String → Bool)
  | customList (fs : List (String → Bool))
  | flag (b : Bool)

/-- Embeds `getIsInlined` from `src/esbuild.ts`. -/
def getIsInlined (path : String) : AssetsInline → Bool
  | .custom f => f path
  | .customList fs => fs.any (fun f => f path)
  | .flag b => b

/-- The esbuild import kinds processed by the resolve hook of `runEsbuild`
(`processedImportKinds` holds the url-token and import-rule kinds); `other` stands for
every unprocessed kind. -/
inductive ImportKindT where
  | urlToken
  | importRule
  | other
deriving Repr, DecidableEq

/-- Embeds the `CssInputItem` construction inside the `onResolve` hook of
`runEsbuild` (src/esbuild.ts, lines 191-232): once the path has been resolved
to `(path, external)`, a non-external url token is either inlined (marked
`inlined := true`, no placeholder) or given a placeholder (marked
`inlined := false`); every other processed reference (external items as well
as import rules) records only `path` and `external`. -/
def mkInputItem (kind : ImportKindT) (path : String) (external : Bool)
    (inline : AssetsInline) : CssInputItem :=
  if !external && kind == .urlToken then
    if getIsInlined path inline then
      { path := path, external := external, inlined := some true }
    else
      { path := path, external := external, inlined := some false,
        placeholder := some (mkPlaceholder path) }
  else
    { path := path, external := external }

/-- C1, counterexample: a non-external `@import`-rule dependency is recorded
with `external = false`, no `inlined` mark and **no** placeholder, refuting
the claim that every non-external, non-inlined input item carries a
placeholder. -/
theorem import_rule_item_has_no_placeholder :
    (mkInputItem .importRule "/a/b.css" false (.flag false)).external = false ∧
    (mkInputItem .importRule "/a/b.css" false (.flag false)).inlined ≠ some true ∧
    (mkInputItem .importRule "/a/b.css" false (.flag false)).placeholder = none := by
  refine ⟨rfl, ?_, rfl⟩
  decide

/-- C1, amended: a recorded `CssInputItem` carries a placeholder if and only if
it is a non-external, non-inlined **url-token** reference; external items,
inlined items and `@import`-rule items never do. -/
theorem placeholder_iff_nonexternal_noninlined_url_token
    (kind : ImportKindT) (path : String) (external : Bool) (inline : AssetsInline) :
    (mkInputItem kind path external inline).placeholder.isSome ↔
      (external = false ∧ kind = .urlToken ∧ getIsInlined path inline = false) := by
  cases kind <;> cases external <;> cases h : getIsInlined path inline <;>
    simp [mkInputItem, h]

/-! ## Resolve classification (src/esbuild.ts) -/

/-- Embeds the rollup `ResolvedId` as far as the plugin reads it (`id` and
`external`; the double negation `!!external` in the source collapses the
union of the absolute marker and booleans to a `Bool`). -/
structure ResolvedIdM where
  id : String
  external : Bool
deriving Repr, DecidableEq

/-- Embeds the non-null part of `ResolveResult` from `src/types.ts`. -/
structure ResolveResultM where
  path : String
  external : Bool
deriving Repr, DecidableEq

/-- Embeds `ResolveContext` from `src/types.ts` (url or import rule). -/
inductive ResolveContextT where
  | url
  | importRule
deriving Repr, DecidableEq

/-- Embeds `getResolveContext` from `src/esbuild.ts`. -/
def getResolveContext (kind : ImportKindT) : ResolveContextT :=
  if kind == .importRule then .importRule else .url

/-- One character of a URL scheme (letters, digits, `+`, `.`, `-`). -/
def isSchemeChar (c : Char) : Bool :=
  c.isAlphanum || c == '+' || c == '.' || c == '-'

/-- The characters before the first `:` when they form a URL scheme and a `:`
is present; otherwise `none`.  Shallow model of the parsing done by
`new URL(path)` to extract `protocol`. -/
def schemeChars : List Char → Option (List Char)
  | [] => none
  | c :: rest =>
    if c == ':' then some []
    else if isSchemeChar c then (schemeChars rest).map (fun s => c :: s)
    else none

/-- Embeds `isExternalUrl` from `src/esbuild.ts`: the path parses as a URL
whose protocol is `http:`, `https:` or `data:`.  The WHATWG URL parser is an
external collaborator; it is modelled by scheme extraction with the scheme
lowercased, as the parser does. -/
def isExternalUrl (p : String) : Bool :=
  match p.data with
  | [] => false
  | c :: rest =>
    c.isAlpha &&
      (match schemeChars (c :: rest) with
       | some s =>
         let low := String.mk (s.map Char.toLower)
         low == "http" || low == "https" || low == "data"
       | none => false)

/-- Embeds `normalizeRollupResolveId` from `src/esbuild.ts` (lines 68-105):
a non-null rollup resolution is normalized and used; otherwise, in `url`
context only, paths starting with `/`, paths starting with `#`, and
`http:`/`https:`/`data:` URLs fall back to an external classification. -/
def normalizeRollupResolveId (resolvedId : Option ResolvedIdM) (pathToResolve : String)
    (resolveContext : ResolveContextT) : Option ResolveResultM :=
  match resolvedId with
  | some r => some { path := normalizePathSlashes r.id, external := r.external }
  | none =>
    if resolveContext == .url then
      if strStartsWith pathToResolve "/" then
        some { path := normalizePathSlashes pathToResolve, external := true }
      else if strStartsWith pathToResolve "#" then
        some { path := pathToResolve, external := true }
      else if isExternalUrl pathToResolve then
        some { path := pathToResolve, external := true }
      else none
    else none

/-- Outcome of one invocation of the `onResolve` hook of `runEsbuild`, as far
as path classification is concerned: whether `rollupPluginContext.resolve` was
invoked, and the resulting classification (`none` models returning `null`,
which defers to the bundling engine and records no input item). -/
structure OnResolveStep where
  resolveInvoked : Bool
  result : Option ResolveResultM
deriving Repr, DecidableEq

/-- Embeds the classification flow of the `onResolve` hook of `runEsbuild`
(src/esbuild.ts, lines 173-189), with the default `resolve` option (`null`):
unprocessed kinds return `null`; `http:`/`https:`/`data:` URLs return `null`
before any resolution; every other processed path is first resolved through
the host (`hostResolve` is the host answer) and then normalized by
`normalizeRollupResolveId`. -/
def onResolveStep (kind : ImportKindT) (pathToResolve : String)
    (hostResolve : Option ResolvedIdM) : OnResolveStep :=
  if kind == .urlToken || kind == .importRule then
    if isExternalUrl pathToResolve then
      { resolveInvoked := false, result := none }
    else
      { resolveInvoked := true,
        result := normalizeRollupResolveId hostResolve pathToResolve (getResolveContext kind) }
  else
    { resolveInvoked := false, result := none }

/-- C6, counterexample: for the root-absolute path `/foo` in `url` context the
host resolve callback **is** invoked (the external classification is only a
fallback applied after the host returned `null`), refuting the claim that the
classification happens without invoking the resolve callback. -/
theorem root_path_classification_invokes_resolve :
    (onResolveStep .urlToken "/foo" none).resolveInvoked = true ∧
    (onResolveStep .urlToken "/foo" none).result =
      some { path := "/foo", external := true } := by
  constructor <;> rfl

/-- C6, amended: `http:`/`https:`/`data:` URLs are returned unresolved without
invoking the resolve callback (no classification is recorded; the bundling
engine treats them as external); root-absolute (`/`) and `#`-prefixed paths in
`url` context are classified external only as a fallback — the resolve
callback is invoked for them first, and a successful host resolution takes
precedence over the external fallback. -/
theorem external_url_skips_resolve_and_root_hash_are_fallbacks
    (p : String) (cs : List Char) (r : ResolvedIdM) :
    (isExternalUrl p = true →
      onResolveStep .urlToken p none = { resolveInvoked := false, result := none }) ∧
    (p.data = '/' :: cs →
      onResolveStep .urlToken p none =
        { resolveInvoked := true,
          result := some { path := normalizePathSlashes p, external := true } }) ∧
    (p.data = '#' :: cs →
      onResolveStep .urlToken p none =
        { resolveInvoked := true, result := some { path := p, external := true } }) ∧
    (isExternalUrl p = false →
      onResolveStep .urlToken p (some r) =
        { resolveInvoked := true,
          result := some { path := normalizePathSlashes r.id, external := r.external } }) := by
  have hext : ∀ c rest, p.data = c :: rest → c.isAlpha = false → isExternalUrl p = false := by
    intro c rest hdata hc
    simp [isExternalUrl, hdata, hc]
  refine ⟨?_, ?_, ?_, ?_⟩
  · intro h
    simp [onResolveStep, h]
  · intro h
    have hnotext : isExternalUrl p = false := hext '/' cs h (by decide)
    have hslash : strStartsWith p "/" = true := by
      simp [strStartsWith, h, listStartsWith]
    simp [onResolveStep, hnotext, normalizeRollupResolveId, getResolveContext, hslash]
  · intro h
    have hnotext : isExternalUrl p = false := hext '#' cs h (by decide)
    have hhash : strStartsWith p "#" = true := by
      simp [strStartsWith, h, listStartsWith]
    have hslash : strStartsWith p "/" = false := by
      simp [strStartsWith, h, listStartsWith]
    simp [onResolveStep, hnotext, normalizeRollupResolveId, getResolveContext, hslash, hhash]
  · intro h
    simp [onResolveStep, h, normalizeRollupResolveId]

/-- C6 witness: concrete instantiation of the amended theorem at
`p = "http://x/a.png"` (for the external-URL clause), at `"/foo"` and
`"#frag"` (for the fallback clauses) and at a successfully host-resolved
path. -/
theorem external_url_skips_resolve_witness :
    (onResolveStep .urlToken "http://x/a.png" none =
      { resolveInvoked := false, result := none }) ∧
    (onResolveStep .urlToken "/foo" none =
      { resolveInvoked := true, result := some { path := "/foo", external := true } }) ∧
    (onResolveStep .urlToken "#frag" none =
      { resolveInvoked := true, result := some { path := "#frag", external := true } }) ∧
    (onResolveStep .urlToken "./img.png" (some { id := "C:\\x\\img.png", external := false }) =
      { resolveInvoked := true,
        result := some { path := "C:/x/img.png", external := false } }) := by
  have h1 := external_url_skips_resolve_and_root_hash_are_fallbacks
    "http://x/a.png" [] { id := "", external := false }
  have h2 := external_url_skips_resolve_and_root_hash_are_fallbacks
    "/foo" "foo".data { id := "", external := false }
  have h3 := external_url_skips_resolve_and_root_hash_are_fallbacks
    "#frag" "frag".data { id := "", external := false }
  have h4 := external_url_skips_resolve_and_root_hash_are_fallbacks
    "./img.png" [] { id := "C:\\x\\img.png", external := false }
  refine ⟨h1.1 (by decide), ?_, ?_, ?_⟩
  · have := h2.2.1 rfl
    rw [this]
    decide
  · exact h3.2.2.1 rfl
  · have := h4.2.2.2 (by decide)
    rw [this]
    decide

/-! ## Single-file bundling output checks (src/esbuild.ts, lines 262-283) -/

/-- One esbuild output, as far as the completion checks of `runEsbuild` read
it: its path and whether the corresponding metafile entry has an
`entryPoint` (the css output does, the sourcemap output does not). -/
structure EsbuildOutput where
  path : String
  entryPoint : Bool
deriving Repr, DecidableEq

/-- Embeds the output checks at the end of `runEsbuild` (src/esbuild.ts,
lines 262-283), with the output-file and metafile lists collapsed into one
list (the source matches them pairwise by path suffix): more than two outputs
is an error; a missing entry-point (css) output is an error; with sourcemaps
enabled a missing non-entry-point (map) output is an error; otherwise the css
output and the optional map output are returned. -/
def runEsbuildOutputCheck (sourcemapEnabled : Bool) (outputs : List EsbuildOutput) :
    Except String (EsbuildOutput × Option EsbuildOutput) :=
  if outputs.length > 2 then
    .error "The generated esbuild output is incorrect."
  else
    match outputs.find? (fun o => o.entryPoint) with
    | none => .error "The esbuild generated css output was not found."
    | some css =>
      match outputs.find? (fun o => !o.entryPoint) with
      | none =>
        if sourcemapEnabled then
          .error "The esbuild generated css sourcemap was not found."
        else
          .ok (css, none)
      | some m => .ok (css, some m)

/-- Boolean success test for an `Except` result (true on `.ok`). -/
def isOkE {ε α : Type} : Except ε α → Bool
  | .ok _ => true
  | .error _ => false

/-- C7, counterexample: with sourcemaps disabled, a result consisting of a css
output **plus a second, spurious output** passes all checks and completes
successfully, refuting the claim that completion requires exactly one CSS
output (any other output count fatal) when sourcemaps are disabled. -/
theorem two_outputs_accepted_without_sourcemap :
    runEsbuildOutputCheck false
        [{ path := "a.css", entryPoint := true }, { path := "extra", entryPoint := false }] =
      .ok ({ path := "a.css", entryPoint := true },
        some { path := "extra", entryPoint := false }) := by
  rfl

/-- C7, amended: single-file bundling completes successfully if and only if at
most two outputs were produced, an entry-point (css) output is among them and,
when sourcemaps are enabled, a non-entry-point (map) output is among them;
every violation (three or more outputs, missing css output, missing required
sourcemap) raises a fatal error.  A spurious second output with sourcemaps
disabled is not rejected. -/
theorem esbuild_output_check_ok_iff (sourcemapEnabled : Bool) (outputs : List EsbuildOutput) :
    isOkE (runEsbuildOutputCheck sourcemapEnabled outputs) = true ↔
      (outputs.length ≤ 2 ∧ (∃ o ∈ outputs, o.entryPoint = true) ∧
        (sourcemapEnabled = true → ∃ o ∈ outputs, o.entryPoint = false)) := by
  unfold runEsbuildOutputCheck
  by_cases hlen : outputs.length > 2
  · have h2 : ¬ outputs.length ≤ 2 := by omega
    rw [if_pos hlen]
    simp only [isOkE]
    constructor
    · intro h
      exact absurd h (by decide)
    · rintro ⟨hle, -, -⟩
      exact absurd hle h2
  · have hlen' : outputs.length ≤ 2 := by omega
    rw [if_neg hlen]
    cases hcss : outputs.find? (fun o => o.entryPoint) with
    | none =>
      have hno : ∀ o ∈ outputs, ¬ o.entryPoint = true := by
        intro o ho
        simpa using List.find?_eq_none.mp hcss o ho
      simp only [isOkE]
      constructor
      · intro h
        exact absurd h (by decide)
      · rintro ⟨-, ⟨o, ho, hc⟩, -⟩
        exact (hno o ho hc).elim
    | some css =>
      have hcssmem : css ∈ outputs := List.mem_of_find?_eq_some hcss
      have hcssep : css.entryPoint = true := by simpa using List.find?_some hcss
      cases hmap : outputs.find? (fun o => !o.entryPoint) with
      | none =>
        have hall : ∀ o ∈ outputs, o.entryPoint = true := by
          intro o ho
          simpa using List.find?_eq_none.mp hmap o ho
        cases sourcemapEnabled with
        | false =>
          simp only [isOkE, Bool.false_eq_true, if_false]
          constructor
          · intro _
            refine ⟨hlen', ⟨css, hcssmem, hcssep⟩, ?_⟩
            intro h
            simp at h
          · intro _
            trivial
        | true =>
          simp only [isOkE, if_true]
          constructor
          · intro h
            exact absurd h (by decide)
          · rintro ⟨-, -, hex⟩
            obtain ⟨o, ho, hfalse⟩ := hex (by trivial)
            exact absurd (hall o ho) (by simp [hfalse])
      | some m =>
        have hmmem : m ∈ outputs := List.mem_of_find?_eq_some hmap
        have hmep : m.entryPoint = false := by
          have h := List.find?_some hmap
          simpa using h
        simp only [isOkE]
        constructor
        · intro _
          exact ⟨hlen', ⟨css, hcssmem, hcssep⟩, fun _ => ⟨m, hmmem, hmep⟩⟩
        · intro _
          trivial

/-! ## Css processors (src/cssProcessors.ts) -/

/-- Embeds `CssProcessorInfo` from `src/types.ts` as far as the processors
read it (the `resolve` callback is dropped: the engines that consume it are
external collaborators). -/
structure CssProcessorInfoM where
  code : String
  sourcemap : Bool
  path : String
deriving Repr, DecidableEq

/-- Embeds `CssProcessorResult` from `src/types.ts`; the sourcemap payload is
opaque here and modelled as an optional string. -/
structure CssProcessorResultM where
  css : String
  map : Option String := none
deriving Repr, DecidableEq

/-- A css processor: may fail (a thrown error is `.error`). -/
abbrev CssProcessorM : Type :=
  CssProcessorInfoM → Except String CssProcessorResultM

/-- A pattern-keyed processor map, in declared order.  `RegExp` keys collapse
to `String → Bool` predicates (the regex engine is external). -/
abbrev CssProcessorMapM : Type :=
  List ((String → Bool) × CssProcessorM)

/-- Embeds the `Map` branch of `runCssProcessors` from `src/cssProcessors.ts`
(lines 142-155): iterate the entries in declared order, run the **first**
processor whose pattern matches the file id and return its result; when no
pattern matches, return the input code with a `null` sourcemap. -/
def runCssProcessorsMap (cssProcessors : CssProcessorMapM) (code : String)
    (sourcemap : Bool) (id : String) : Except String CssProcessorResultM :=
  let info : CssProcessorInfoM := { code := code, sourcemap := sourcemap, path := id }
  match cssProcessors.find? (fun entry => entry.1 id) with
  | some entry => entry.2 info
  | none => .ok { css := code, map := none }

/-- Pattern of the sass entry of `preprocessors` (`/\.(s[ac]ss)$/`). -/
def sassPat (id : String) : Bool :=
  strEndsWith id ".sass" || strEndsWith id ".scss"

/-- Pattern of the less entry of `preprocessors` (`/\.less$/`). -/
def lessPat (id : String) : Bool := strEndsWith id ".less"

/-- Pattern of the stylus entry of `preprocessors` (`/\.(styl|stylus)$/`). -/
def stylusPat (id : String) : Bool :=
  strEndsWith id ".styl" || strEndsWith id ".stylus"

/-- The outcome of a dynamic `await import(pkg)` expression at the module
loader boundary: a missing package makes the import **reject** — the loader
raises a module-not-found error, whose runtime-dependent wording is carried
here as a string — while a loaded module resolves with its default export,
which may itself be absent (falsy). -/
inductive JsImportResult where
  | rejected (errMsg : String)
  | resolved (defaultExport : Option (CssProcessorInfoM → CssProcessorResultM))

/-- Embeds the sass entry of `preprocessors` from `src/cssProcessors.ts`
(lines 44-76).  The dynamic import there has **no** rejection handler (unlike
`src/builtInCssProcessors.ts`), so a missing package propagates the module
loader error out of the processor; the in-source install message is reached
only when the import resolves with a falsy default export.  A resolved
engine is modelled as a total compile function. -/
def preprocessorSass (imp : JsImportResult) : CssProcessorM := fun info =>
  match imp with
  | .rejected errMsg => .error errMsg
  | .resolved (some compile) => .ok (compile info)
  | .resolved none =>
    .error "Please install the \"sass\" package to support \".scss\" / \".sass\" file compilation."

/-- Embeds the less entry of `preprocessors` from `src/cssProcessors.ts`
(lines 77-100).  As in the sass entry, the import has no rejection handler,
so a missing package propagates the loader error; the install message
reached on a falsy resolved default export is the one literally present in
the source — it names the `sass` package, not the `less` package. -/
def preprocessorLess (imp : JsImportResult) : CssProcessorM := fun info =>
  match imp with
  | .rejected errMsg => .error errMsg
  | .resolved (some compile) => .ok (compile info)
  | .resolved none =>
    .error "Please install the \"sass\" package to support \".scss\" / \".sass\" file compilation."

/-- Embeds the stylus entry of `preprocessors` from `src/cssProcessors.ts`
(lines 101-112).  The un-handled import rejection propagates like in the
other entries; otherwise the render result of a resolved truthy engine is
discarded and the entry returns empty css with a `null` map (this entry
holds no install message at all). -/
def preprocessorStylus (imp : JsImportResult) : CssProcessorM := fun _info =>
  match imp with
  | .rejected errMsg => .error errMsg
  | .resolved _ => .ok { css := "", map := none }

/-- The `preprocessors` map of `src/cssProcessors.ts` in declared order,
parameterized by the import outcome of the three engine packages. -/
def preprocessorsMap (sassImp lessImp stylusImp : JsImportResult) : CssProcessorMapM :=
  [(sassPat, preprocessorSass sassImp),
   (lessPat, preprocessorLess lessImp),
   (stylusPat, preprocessorStylus stylusImp)]

/-- Embeds the less processor of `builtInProcessors` from
`src/builtInCssProcessors.ts` (lines 135-187): there the dynamic import is
written with a rejection handler mapping to `null`, so a rejected import and
a falsy default export alike reach the install message naming the `less`
package. -/
def builtInLess (imp : JsImportResult) : CssProcessorM := fun info =>
  match imp with
  | .resolved (some compile) => .ok (compile info)
  | .resolved none =>
    .error "Please install the \"less\" package to support \".less\" file compilation."
  | .rejected _ =>
    .error "Please install the \"less\" package to support \".less\" file compilation."

/-- True when `needle` occurs as a contiguous substring of `hay`. -/
def listHasSub (hay needle : List Char) : Bool :=
  match hay with
  | [] => needle.isEmpty
  | _ :: rest => listStartsWith hay needle || listHasSub rest needle

/-- String version of `listHasSub`. -/
def strHasSub (hay needle : String) : Bool := listHasSub hay.data needle.data

/-- C9: behaviour of the live `preprocessors` map of `src/cssProcessors.ts`
on a `.less` file when the less package is not installed: the un-handled
dynamic import rejection propagates **verbatim** out of the processor stage,
whatever the loader wording is — the compile fails, but no actionable
message naming the `less` package is ever produced.  The install message
present in that entry is reachable only when the import resolves with a
falsy default export, and even then it names the `sass` package (a
copy-paste from the sass entry) and never mentions `less`; the sibling
implementation in `src/builtInCssProcessors.ts`, whose import handles the
rejection, does produce the message naming `less`. -/
theorem less_missing_package_not_actionable (moduleNotFound : String)
    (sassImp stylusImp : JsImportResult) :
    (runCssProcessorsMap (preprocessorsMap sassImp (.rejected moduleNotFound) stylusImp)
        "a" false "style.less" = .error moduleNotFound) ∧
    (preprocessorLess (.resolved none)
        { code := "a", sourcemap := false, path := "style.less" } =
      .error "Please install the \"sass\" package to support \".scss\" / \".sass\" file compilation.") ∧
    (strHasSub "Please install the \"sass\" package to support \".scss\" / \".sass\" file compilation."
      "less" = false) ∧
    (builtInLess (.rejected moduleNotFound)
        { code := "a", sourcemap := false, path := "style.less" } =
      .error "Please install the \"less\" package to support \".less\" file compilation.") := by
  refine ⟨rfl, rfl, rfl, rfl⟩

/-- C8, counterexample: a processor map whose first two patterns both match
the file runs only the **first** processor — the second is never applied, so
the result is not the sequential composition the claim describes. -/
theorem only_first_matching_processor_runs :
    runCssProcessorsMap
        [(fun _ => true, fun info => .ok { css := info.code ++ "A", map := none }),
         (fun _ => true, fun info => .ok { css := info.code ++ "B", map := none })]
        "x" false "f.css" =
      .ok { css := "xA", map := none } ∧
    ({ css := "xA", map := none } : CssProcessorResultM) ≠ { css := "xAB", map := none } := by
  constructor
  · rfl
  · decide

/-- C8, amended: the processor stage runs exactly the first processor (in the
fixed declared order of the map) whose pattern matches the file id, passing it
the original `{code, sourcemap, path}`; later entries — matching or not — are
never run, and with no matching entry the input is returned unchanged. -/
theorem first_matching_processor_runs
    (pre post : CssProcessorMapM) (pat : String → Bool) (f : CssProcessorM)
    (code : String) (sourcemap : Bool) (id : String)
    (hpre : ∀ entry ∈ pre, entry.1 id = false) (hpat : pat id = true) :
    runCssProcessorsMap (pre ++ (pat, f) :: post) code sourcemap id =
      f { code := code, sourcemap := sourcemap, path := id } := by
  unfold runCssProcessorsMap
  induction pre with
  | nil => simp [List.find?, hpat]
  | cons e rest ih =>
    have he : e.1 id = false := hpre e (by simp)
    have hrest : ∀ entry ∈ rest, entry.1 id = false := fun entry hm => hpre entry (by simp [hm])
    simpa [List.find?, he] using ih hrest

/-- C8 witness: concrete instantiation of the amended theorem — the file
`a.b.scss` matches only the sass pattern even though the map also holds less
and stylus entries, and the sass processor alone produces the result. -/
theorem first_matching_processor_runs_witness :
    runCssProcessorsMap
        [(lessPat, fun info => .ok { css := info.code ++ "L", map := none }),
         (sassPat, fun info => .ok { css := info.code ++ "S", map := none }),
         (stylusPat, fun info => .ok { css := info.code ++ "T", map := none })]
        "x" true "a.b.scss" =
      .ok { css := "xS", map := none } :=
  first_matching_processor_runs
    [(lessPat, fun info => .ok { css := info.code ++ "L", map := none })]
    [(stylusPat, fun info => .ok { css := info.code ++ "T", map := none })]
    sassPat (fun info => .ok { css := info.code ++ "S", map := none })
    "x" true "a.b.scss"
    (by intro entry hm; simp at hm; rw [hm]; decide) (by decide)

/-- C10: when the processors are given as a pattern-keyed map and no pattern
matches the file id, the processor stage is the identity on the css source:
it returns the input text unchanged with a `null` sourcemap. -/
theorem no_matching_pattern_is_identity
    (cssProcessors : CssProcessorMapM) (code : String) (sourcemap : Bool) (id : String)
    (hnone : ∀ entry ∈ cssProcessors, entry.1 id = false) :
    runCssProcessorsMap cssProcessors code sourcemap id = .ok { css := code, map := none } := by
  unfold runCssProcessorsMap
  have : cssProcessors.find? (fun entry => entry.1 id) = none := by
    rw [List.find?_eq_none]
    intro e he
    simp [hnone e he]
  simp [this]

/-- C10 witness: a plain `.css` file matches none of the built-in
`preprocessors` patterns, so the stage returns its text unchanged. -/
theorem no_matching_pattern_is_identity_witness :
    runCssProcessorsMap
        (preprocessorsMap (.rejected "Cannot find module sass")
          (.rejected "Cannot find module less") (.rejected "Cannot find module stylus"))
        "body" true "file.css" =
      .ok { css := "body", map := none } :=
  no_matching_pattern_is_identity
    (preprocessorsMap (.rejected "Cannot find module sass")
      (.rejected "Cannot find module less") (.rejected "Cannot find module stylus"))
    "body" true "file.css"
    (by
      intro entry hm
      simp [preprocessorsMap] at hm
      rcases hm with h | h | h <;> rw [h] <;> decide)

/-! ## Chunk extraction (src/unnamed/part_001, `output.ts`) -/

/-- Embeds `PluginMeta` from `src/types.ts` as read by chunk extraction
(the sourcemap is irrelevant there and omitted). -/
structure PluginMetaM where
  id : String
  css : String
  inputs : List CssInputItem
deriving Repr, DecidableEq

/-- Embeds `getPluginMetas` from `output.ts`: map every module id to its
plugin meta attachment and drop the modules without one. -/
def getPluginMetas (moduleIds : List String) (getMeta : String → Option PluginMetaM) :
    List PluginMetaM :=
  moduleIds.filterMap getMeta

/-- Embeds the rollup `OutputChunk` as read by `emitChunkCssFiles`: the module
map is modelled by its key list in object insertion order (the values are
never read). -/
structure OutputChunkM where
  name : String
  fileName : String
  moduleKeys : List String
  dynamicImports : List String
deriving Repr, DecidableEq

/-- Key order of the JavaScript object spread `{ ...a, ...b }`: the keys of
`a` in order (later values overwrite but keep the first position), then the
keys of `b` not present in `a`. -/
def jsSpreadKeys (a b : List String) : List String :=
  a ++ b.filter (fun k => !(a.contains k))

/-- Embeds `getChunkModules` from `output.ts` (lines 71-93): the own module
keys of the chunk, and separately the deduplicated spread-merged module keys of
every directly-dynamically-imported chunk (first matching bundle entry per
dynamic import, misses dropped, merged left to right). -/
def getChunkModules (chunks : List (String × OutputChunkM)) (chunk : OutputChunkM) :
    List String × List String :=
  let dynamicChunksModules := (chunk.dynamicImports.filterMap
      (fun dyn => (chunks.find? (fun e => e.1 == dyn)).map (fun e => e.2.moduleKeys))).foldl
    jsSpreadKeys []
  (chunk.moduleKeys, dynamicChunksModules)

/-- The fully-defaulted extraction result (`Required<CssForChunksExtractResult>`
built as `suggestedResult` in `emitChunkCssFiles`). -/
structure SuggestedExtractResult where
  name : String
  source : String
  inputs : List CssInputItem
deriving Repr, DecidableEq

/-- Embeds the `suggestedResult` construction of `emitChunkCssFiles`
(`output.ts`, lines 188-198): static module keys spread-merged with the
dynamic ones, mapped to plugin metas; name is `<chunkName>.css`, source joins
the css of every meta with a CRLF line break, inputs concatenates the input
list of every meta. -/
def suggestedExtractResult (chunks : List (String × OutputChunkM)) (chunk : OutputChunkM)
    (getMeta : String → Option PluginMetaM) : SuggestedExtractResult :=
  let mods := getChunkModules chunks chunk
  let chunkModuleKeys := jsSpreadKeys mods.1 mods.2
  let chunkPluginMetas := getPluginMetas chunkModuleKeys getMeta
  { name := chunk.name ++ ".css",
    source := jsJoin "\r\n" (chunkPluginMetas.map (fun m => m.css)),
    inputs := (chunkPluginMetas.map (fun m => m.inputs)).flatten }

/-- C2: for a chunk with static modules `[a, b]` and one directly
dynamically-imported chunk contributing module `c`, the suggested extraction
source is `a.css + CRLF + b.css + CRLF + c.css` in exactly that order —
static modules before dynamic-origin modules, joined by the line break. -/
theorem chunk_css_concat_order
    (a b c dname : String) (ma mb mc : PluginMetaM) (getMeta : String → Option PluginMetaM)
    (mainChunk dynChunk : OutputChunkM)
    (hkeys : mainChunk.moduleKeys = [a, b]) (hdynimp : mainChunk.dynamicImports = [dname])
    (hdyn : dynChunk.moduleKeys = [c])
    (hca : c ≠ a) (hcb : c ≠ b)
    (hma : getMeta a = some ma) (hmb : getMeta b = some mb) (hmc : getMeta c = some mc) :
    (suggestedExtractResult [(dname, dynChunk)] mainChunk getMeta).source =
      ma.css ++ "\r\n" ++ (mb.css ++ "\r\n" ++ mc.css) := by
  unfold suggestedExtractResult getChunkModules
  simp only [hkeys, hdynimp, hdyn, List.filterMap, List.find?, beq_self_eq_true,
    Option.map_some']
  simp only [List.foldl, jsSpreadKeys, getPluginMetas]
  simp [hca, hcb, hma, hmb, hmc, List.filterMap_cons, jsJoin]

/-- C2 witness: the concatenation-order theorem applied to three concrete
modules, two static and one reached through a dynamic import. -/
theorem chunk_css_concat_order_witness :
    (suggestedExtractResult
        [("dyn", { name := "dyn", fileName := "dyn.js",
                   moduleKeys := ["/s/c.css"], dynamicImports := [] })]
        { name := "main", fileName := "main.js",
          moduleKeys := ["/s/a.css", "/s/b.css"], dynamicImports := ["dyn"] }
        (fun id =>
          if id == "/s/a.css" then some { id := "/s/a.css", css := "A", inputs := [] }
          else if id == "/s/b.css" then some { id := "/s/b.css", css := "B", inputs := [] }
          else if id == "/s/c.css" then some { id := "/s/c.css", css := "C", inputs := [] }
          else none)).source =
      "A" ++ "\r\n" ++ ("B" ++ "\r\n" ++ "C") :=
  chunk_css_concat_order "/s/a.css" "/s/b.css" "/s/c.css" "dyn"
    { id := "/s/a.css", css := "A", inputs := [] }
    { id := "/s/b.css", css := "B", inputs := [] }
    { id := "/s/c.css", css := "C", inputs := [] }
    _ _ _ rfl rfl rfl (by decide) (by decide) rfl rfl rfl

/-! ## Custom extraction strategy (src/unnamed/part_001, `emitChunkCssFiles`) -/

/-- The possible returns of a custom extraction strategy
(`CssForChunksExtractResult | boolean | null | undefined`): `true`, any falsy
value, or a result object whose `source`/`inputs` may be omitted (`name` has
no destructuring default in the source, so an omitted `name` stays absent). -/
inductive ExtractReturn where
  | retTrue
  | retFalsy
  | retObj (name : Option String) (source : Option String) (inputs : Option (List CssInputItem))
deriving DecidableEq

/-- The value of `getExtractInfo()` inside `emitChunkCssFiles`: note that
`name` is optional because the destructuring `const { name, source = ...,
inputs = ... } = result` defaults `source` and `inputs` but not `name`. -/
structure ExtractInfo where
  name : Option String
  source : String
  inputs : List CssInputItem

/-- Embeds `getExtractInfo` of `emitChunkCssFiles` (`output.ts`, lines
212-234) for a configured custom strategy whose return is `ret`: a falsy
return is replaced by an object holding an empty name, an empty source and no
inputs; `true` yields the
suggested result; an object keeps its own fields, defaulting only `source`
and `inputs` to the suggestion. -/
def getExtractInfo (ret : ExtractReturn) (suggested : SuggestedExtractResult) : ExtractInfo :=
  match ret with
  | .retTrue => { name := some suggested.name, source := suggested.source,
                  inputs := suggested.inputs }
  | .retFalsy => { name := some "", source := "", inputs := [] }
  | .retObj n s i => { name := n, source := s.getD suggested.source,
                       inputs := i.getD suggested.inputs }

/-- Embeds `getSubstitutions` from `output.ts` (lines 109-112): every input
with a truthy placeholder contributes the pair `(placeholder, path)`. -/
def getSubstitutions (inputs : List CssInputItem) : List (String × String) :=
  inputs.filterMap (fun item =>
    match item.placeholder with
    | some ph => if ph == "" then none else some (ph, item.path)
    | none => none)

/-- The emitted artifact of one chunk (`emitFile` result plus substitutions);
`emitName` is optional because the source can pass `fileName: undefined` to
rollup when a custom strategy omitted `name`.  The host-assigned final file
name is external and omitted. -/
structure ChunkCssFile where
  id : String
  emitName : Option String
  source : String
  substitutions : List (String × String)
deriving Repr, DecidableEq

/-- Embeds the per-chunk body of `emitChunkCssFiles` (`output.ts`, lines
188-243) under a configured custom strategy: build the suggested result,
apply the strategy return, and emit the artifact only when the resulting
source is non-empty. -/
def emitOneChunkCss (chunks : List (String × OutputChunkM))
    (retOf : OutputChunkM → ExtractReturn) (getMeta : String → Option PluginMetaM)
    (chunk : OutputChunkM) : Option ChunkCssFile :=
  let suggested := suggestedExtractResult chunks chunk getMeta
  let info := getExtractInfo (retOf chunk) suggested
  if info.source.length != 0 then
    some { id := chunk.fileName, emitName := info.name, source := info.source,
           substitutions := getSubstitutions info.inputs }
  else none

/-- Embeds `emitChunkCssFiles` over the chunk list (`.map(...).filter(Boolean)`
is `filterMap`): chunks are processed independently in bundle order. -/
def emitChunkCssFilesM (chunks : List (String × OutputChunkM))
    (retOf : OutputChunkM → ExtractReturn) (getMeta : String → Option PluginMetaM) :
    List ChunkCssFile :=
  chunks.filterMap (fun e => emitOneChunkCss chunks retOf getMeta e.2)

/-- C4, counterexample: a partial override that sets only `source` does
**not** default the artifact name to the suggested `<chunkName>.css` — the
emitted artifact carries no name at all (the destructuring in the source has
no default for `name`), refuting the claim that every unset field of
name/source/inputs defaults to the suggested result. -/
theorem partial_override_does_not_default_name :
    (emitOneChunkCss []
        (fun _ => .retObj none (some "X") none)
        (fun _ => none)
        { name := "chunk", fileName := "chunk.js", moduleKeys := [], dynamicImports := [] }) =
      some { id := "chunk.js", emitName := none, source := "X", substitutions := [] } ∧
    (none : Option String) ≠ some "chunk.css" := by
  constructor
  · rfl
  · decide

/-- C4, amended: with a custom extraction strategy configured, a `true` return
yields the suggested result; a partial override keeps the returned fields and
defaults unset `source` and `inputs` — but **not** `name` — to the suggested
result; a falsy return yields an empty source and hence no emitted artifact,
leaving the other chunks unaffected; and in every case an artifact is emitted
iff the resulting source is non-empty. -/
theorem custom_extract_strategy_behaviour
    (chunks : List (String × OutputChunkM)) (retOf : OutputChunkM → ExtractReturn)
    (getMeta : String → Option PluginMetaM) (chunk : OutputChunkM)
    (s : String) (ins : List CssInputItem)
    (n1 n2 : String) (c1 c2 : OutputChunkM)
    (hsug : (suggestedExtractResult chunks chunk getMeta).source ≠ "")
    (hs : s ≠ "")
    (hret1 : retOf chunk = .retTrue)
    (hfalsy : retOf c1 = .retFalsy) :
    (emitOneChunkCss chunks retOf getMeta chunk =
      some { id := chunk.fileName,
             emitName := some (suggestedExtractResult chunks chunk getMeta).name,
             source := (suggestedExtractResult chunks chunk getMeta).source,
             substitutions :=
               getSubstitutions (suggestedExtractResult chunks chunk getMeta).inputs }) ∧
    (emitOneChunkCss chunks (fun _ => .retObj none (some s) (some ins)) getMeta chunk =
      some { id := chunk.fileName, emitName := none, source := s,
             substitutions := getSubstitutions ins }) ∧
    (emitOneChunkCss chunks (fun _ => .retFalsy) getMeta chunk = none) ∧
    (∀ r : ExtractReturn,
      (emitOneChunkCss chunks (fun _ => r) getMeta chunk).isSome =
        ((getExtractInfo r (suggestedExtractResult chunks chunk getMeta)).source != "")) ∧
    (emitChunkCssFilesM [(n1, c1), (n2, c2)] retOf getMeta =
      (emitOneChunkCss [(n1, c1), (n2, c2)] retOf getMeta c2).toList) := by
  have hlen : ∀ t : String, t ≠ "" → (t.length != 0) = true := by
    intro t ht
    have hdata : t.data ≠ [] := by
      intro h
      apply ht
      cases t with
      | mk d => cases h; rfl
    have : t.length ≠ 0 := by
      intro h
      exact hdata (List.length_eq_zero.mp h)
    simpa using this
  refine ⟨?_, ?_, ?_, ?_, ?_⟩
  · unfold emitOneChunkCss
    rw [hret1]
    simp only [getExtractInfo]
    rw [if_pos (by simpa using hlen _ hsug)]
  · unfold emitOneChunkCss
    simp only [getExtractInfo, Option.getD_some]
    rw [if_pos (by simpa using hlen _ hs)]
  · unfold emitOneChunkCss
    simp [getExtractInfo]
  · intro r
    unfold emitOneChunkCss
    by_cases h : ((getExtractInfo r (suggestedExtractResult chunks chunk getMeta)).source != "")
    · have : ((getExtractInfo r (suggestedExtractResult chunks chunk getMeta)).source.length != 0) = true := by
        have hne : (getExtractInfo r (suggestedExtractResult chunks chunk getMeta)).source ≠ "" := by
          simpa using h
        simpa using hlen _ hne
      simp only [this, if_pos]
      simp [h]
    · have hempty : (getExtractInfo r (suggestedExtractResult chunks chunk getMeta)).source = "" := by
        simpa using h
      simp [hempty]
  · unfold emitChunkCssFilesM
    simp only [List.filterMap]
    have : emitOneChunkCss [(n1, c1), (n2, c2)] retOf getMeta c1 = none := by
      unfold emitOneChunkCss
      rw [hfalsy]
      simp [getExtractInfo]
    rw [this]
    cases emitOneChunkCss [(n1, c1), (n2, c2)] retOf getMeta c2 <;> rfl

/-- Witness fixture: a chunk holding the single module `/m.css`. -/
def wChunkOne : OutputChunkM :=
  { name := "one", fileName := "one.js", moduleKeys := ["/m.css"], dynamicImports := [] }

/-- Witness fixture: a chunk holding no css modules. -/
def wChunkZ : OutputChunkM :=
  { name := "z", fileName := "z.js", moduleKeys := [], dynamicImports := [] }

/-- Witness fixture: a strategy accepting the suggestion for `one` and
returning a falsy value for every other chunk. -/
def wRetOf (ch : OutputChunkM) : ExtractReturn :=
  if ch.name == "one" then .retTrue else .retFalsy

/-- Witness fixture: the module metas of the witness bundle. -/
def wGetMeta (id : String) : Option PluginMetaM :=
  if id == "/m.css" then some { id := "/m.css", css := "M", inputs := [] } else none

/-- C4 witness: the amended strategy theorem applied to one concrete chunk
with one module and a second chunk that the strategy suppresses. -/
theorem custom_extract_strategy_behaviour_witness :
    (emitOneChunkCss [("one", wChunkOne)] wRetOf wGetMeta wChunkOne =
      some { id := "one.js", emitName := some "one.css", source := "M", substitutions := [] }) ∧
    (emitChunkCssFilesM [("z", wChunkZ), ("one", wChunkOne)] wRetOf wGetMeta =
      [{ id := "one.js", emitName := some "one.css", source := "M", substitutions := [] }]) := by
  have h := custom_extract_strategy_behaviour
    [("one", wChunkOne)] wRetOf wGetMeta wChunkOne
    "s" [] "z" "one" wChunkZ wChunkOne
    (by decide) (by decide) (by decide) (by decide)
  have h2 := custom_extract_strategy_behaviour
    [("z", wChunkZ), ("one", wChunkOne)] wRetOf wGetMeta wChunkOne
    "s" [] "z" "one" wChunkZ wChunkOne
    (by decide) (by decide) (by decide) (by decide)
  refine ⟨?_, ?_⟩
  · have hh := h.1
    rw [hh]
    rfl
  · have hh := h2.2.2.2.2
    rw [hh]
    rfl

/-! ## Reference rendering (src/render.ts) -/

/-- The template delimiters of `src/render.ts` (`templateInterpolate` marker
constants): opening `^<<^`, closing `^>>^`, interpolation symbol `=`. -/
def tmplPre : List Char := ['^', '<', '<', '^']

/-- Closing template delimiter `^>>^` of `src/render.ts`. -/
def tmplSuf : List Char := ['^', '>', '>', '^']

/-- Interpolation symbol `=` of `src/render.ts`. -/
def tmplSym : Char := '='

/-- Split `l` at the first occurrence of the contiguous sequence `sep`:
returns the part before `sep` and the part after it, or `none` when `sep`
does not occur.  Used to model the lazy regex matching of the template
engine. -/
def splitBeforeSeq (sep : List Char) : List Char → Option (List Char × List Char)
  | [] => none
  | c :: rest =>
    if listStartsWith (c :: rest) sep then some ([], (c :: rest).drop sep.length)
    else
      match splitBeforeSeq sep rest with
      | some (before, after) => some (c :: before, after)
      | none => none

theorem splitBeforeSeq_post_length (sep : List Char) (hsep : sep ≠ []) :
    ∀ l before after, splitBeforeSeq sep l = some (before, after) → after.length < l.length := by
  intro l
  induction l with
  | nil =>
    intro pre post h
    simp [splitBeforeSeq] at h
  | cons c rest ih =>
    intro pre post h
    have hsl : 1 ≤ sep.length := List.length_pos.mpr hsep
    unfold splitBeforeSeq at h
    by_cases hp : listStartsWith (c :: rest) sep = true
    · rw [if_pos hp] at h
      have : post = (c :: rest).drop sep.length := by
        cases h
        rfl
      rw [this, List.length_drop]
      simp only [List.length_cons]
      omega
    · rw [if_neg (by simpa using hp)] at h
      cases hsplit : splitBeforeSeq sep rest with
      | some pr =>
        rw [hsplit] at h
        cases h
        have := ih pr.1 pr.2 (by rw [hsplit])
        simp only [List.length_cons]
        omega
      | none =>
        rw [hsplit] at h
        cases h

/-- Record lookup with JavaScript object semantics: the **last** write to a
key wins (the substitution record is built by a `reduce` into one object). -/
def recordLookup (l : List (String × String)) (k : String) : Option String :=
  (l.reverse.find? (fun pr => pr.1 == k)).map (fun pr => pr.2)

/-- Models the `dot` template engine invocation of `renderCssFile`
(src/render.ts, lines 12-24) at its boundary, as the generic find/replace
contract: scan the text for `^<<^ ... ^>>^` regions; a region starting with
`=` interpolates the named value — an unknown name throws (the engine raises
a reference error naming the identifier); text without a closing delimiter
after an opening one is left as-is, as the lazy regex finds no further
match. -/
def renderTmpl (subs : List (String × String)) : List Char → Except String (List Char)
  | [] => .ok []
  | c :: rest =>
    if listStartsWith (c :: rest) tmplPre then
      match hsp : splitBeforeSeq tmplSuf ((c :: rest).drop tmplPre.length) with
      | some (tok, post) =>
        match tok with
        | '=' :: nameChars =>
          match recordLookup subs (String.mk nameChars) with
          | some v => (renderTmpl subs post).map (fun out => v.data ++ out)
          | none => .error (String.mk nameChars ++ " is not defined")
        | _ => .error "unsupported template expression"
      | none => .ok (c :: rest)
    else
      (renderTmpl subs rest).map (fun out => c :: out)
termination_by l => l.length
decreasing_by
  · have hlt := splitBeforeSeq_post_length tmplSuf (by decide) _ _ _ hsp
    rw [List.length_drop] at hlt
    simp only [List.length_cons] at hlt ⊢
    omega
  · simp

/-- Embeds `renderCssFile` from `src/render.ts` (lines 12-24): one templated
replace pass over the whole source, resolving (reject) to an error, resolving
(fulfil) to the fully substituted text. -/
def renderCssFile (source : String) (substitutions : List (String × String)) :
    Except String String :=
  (renderTmpl substitutions source.data).map String.mk

/-- Embeds `EmittedAssetFileMeta` from `output.ts`. -/
structure EmittedAssetFileMeta where
  id : String
  emitName : String
  emitFileName : String
  emitDefaultName : String
deriving Repr, DecidableEq

/-- Embeds `EmittedCssFileMeta` from `output.ts` (the `extends` relation is
flattened into plain fields). -/
structure EmittedCssFileMeta where
  id : String
  emitName : String
  emitFileName : String
  emitDefaultName : String
  substitutions : List (String × String)
deriving Repr, DecidableEq

/-- Embeds the `output` part of `AssetOutputMeta` from `src/types.ts`. -/
structure OutputNamesM where
  name : String
  fileName : String
  defaultName : String
deriving Repr, DecidableEq

/-- Embeds `AssetOutputMeta` from `src/types.ts`. -/
structure AssetOutputMetaM where
  inputPath : String
  output : OutputNamesM
deriving Repr, DecidableEq

/-- Embeds `AssetUrlInfo` from `src/types.ts`. -/
structure AssetUrlInfoM where
  assetFileMeta : AssetOutputMetaM
  cssFileMeta : AssetOutputMetaM
  publicPath : Option String

/-- The render-relevant part of the `RollupCssAssets` options consumed by
`renderCssFiles`: `publicPath` (`null` is `none`) and the optional custom
url formatter. -/
structure RenderOptionsM where
  publicPath : Option String
  url : Option (AssetUrlInfoM → String → String)

/-- Split a character list at every occurrence of `sep` (JS
`String.prototype.split` semantics, keeping empty parts). -/
def splitCharList (sep : Char) : List Char → List (List Char)
  | [] => [[]]
  | c :: rest =>
    let r := splitCharList sep rest
    if c == sep then [] :: r
    else
      match r with
      | h :: t => (c :: h) :: t
      | [] => [[c]]

/-- Split a slash-separated path into its segments. -/
def splitSlash (p : String) : List String := (splitCharList '/' p.data).map String.mk

/-- The directory of a path, as a segment list (models Node `path.dirname`
for the relative, slash-normalized file names found in a bundle; the
directory of a bare file name is the empty segment list, i.e. `.`). -/
def pathDirSegments (p : String) : List String := (splitSlash p).dropLast

/-- Relative-path segments from directory `f` to path `t`: drop the common
prefix, then one `..` per remaining segment of `f` followed by the rest of
`t` (models Node `path.relative` for paths resolved against the same working
directory). -/
def relSegments : List String → List String → List String
  | [], t => t
  | f, [] => f.map (fun _ => "..")
  | a :: f, b :: t =>
    if a == b then relSegments f t
    else (a :: f).map (fun _ => "..") ++ b :: t

/-- Models `path.relative(fromDir, toPath)` joined back with slashes. -/
def pathRelative (fromDir : List String) (toPath : String) : String :=
  jsJoin "/" (relSegments fromDir (splitSlash toPath))

/-- The `resolvedUrl` of `renderCssFiles` (src/render.ts, lines 66-68): the
slash-normalized relative path from the output directory of the style
artifact to the final output path of the asset. -/
def resolvedUrlOf (cssFileName assetFileName : String) : String :=
  normalizePathSlashes (pathRelative (pathDirSegments cssFileName) assetFileName)

/-- The metadata record handed to a custom url formatter by `renderCssFiles`
(src/render.ts, lines 72-93). -/
def mkAssetUrlInfo (opts : RenderOptionsM) (cssMeta : EmittedCssFileMeta)
    (assetMeta : EmittedAssetFileMeta) : AssetUrlInfoM :=
  { assetFileMeta :=
      { inputPath := normalizePathSlashes assetMeta.id,
        output := { name := assetMeta.emitName, fileName := assetMeta.emitFileName,
                    defaultName := assetMeta.emitDefaultName } },
    cssFileMeta :=
      { inputPath := normalizePathSlashes cssMeta.id,
        output := { name := cssMeta.emitName, fileName := cssMeta.emitFileName,
                    defaultName := cssMeta.emitDefaultName } },
    publicPath := opts.publicPath }

/-- Embeds the per-substitution url computation of `renderCssFiles`
(src/render.ts, lines 66-94): the default url is `publicPath` (empty when
unset) plus the resolved relative url; a custom formatter, when configured,
is called with the metadata record **and the bare resolved relative url**
(not the publicPath-prefixed one) and its return value is used instead. -/
def computeFinalUrl (opts : RenderOptionsM) (cssMeta : EmittedCssFileMeta)
    (assetMeta : EmittedAssetFileMeta) : String :=
  let resolvedUrl := resolvedUrlOf cssMeta.emitFileName assetMeta.emitFileName
  let publicPathUrl := (opts.publicPath.getD "") ++ resolvedUrl
  match opts.url with
  | some f => f (mkAssetUrlInfo opts cssMeta assetMeta) resolvedUrl
  | none => publicPathUrl

/-- Embeds the `computedSubstitutions` construction of `renderCssFiles`
(src/render.ts, lines 54-103): each substitution pair whose dependency id has
a matching emitted asset contributes `(placeholder, finalUrl)`; pairs without
a matching asset are dropped (`.filter(Boolean)`). -/
def computedSubstitutions (assets : List EmittedAssetFileMeta) (opts : RenderOptionsM)
    (cssMeta : EmittedCssFileMeta) : List (String × String) :=
  cssMeta.substitutions.filterMap (fun pr =>
    (assets.find? (fun am => am.id == pr.2)).map (fun am => (pr.1, computeFinalUrl opts cssMeta am)))

/-- The error wrapper of `renderCssFiles` around a failed template render
(src/render.ts, lines 109-113); the source message uses the contraction
form of "could not". -/
def artifactRenderError (cssFileName inner : String) : String :=
  "Could not find all asset files used by the file \"" ++ cssFileName ++ "\". (" ++ inner ++ ")"

/-- Embeds the per-artifact render of `renderCssFiles` (src/render.ts, lines
39-117) for an artifact present in the bundle with byte content `source`:
compute the substitutions, run the single templated-replace pass, and wrap a
failure in the artifact-naming error. -/
def renderOneCssFile (assets : List EmittedAssetFileMeta) (opts : RenderOptionsM)
    (cssMeta : EmittedCssFileMeta) (source : String) : Except String String :=
  match renderCssFile source (computedSubstitutions assets opts cssMeta) with
  | .ok s => .ok s
  | .error e => .error (artifactRenderError cssMeta.emitFileName e)

/-- The bundle content of the artifact after the render pass: it is overwritten
only by a fulfilled render (`bundleAsset.source = substitutedSource` runs in
the fulfilment handler), so a failed artifact keeps its original bytes. -/
def renderedBundleSource (assets : List EmittedAssetFileMeta) (opts : RenderOptionsM)
    (cssMeta : EmittedCssFileMeta) (source : String) : String :=
  match renderOneCssFile assets opts cssMeta source with
  | .ok s => s
  | .error _ => source

theorem renderTmpl_append_clean (subs : List (String × String)) (pre l : List Char)
    (hpre : ∀ c ∈ pre, c ≠ '^') :
    renderTmpl subs (pre ++ l) = (renderTmpl subs l).map (fun out => pre ++ out) := by
  induction pre with
  | nil =>
    simp only [List.nil_append]
    cases renderTmpl subs l <;> simp [Except.map]
  | cons c cs ih =>
    have hc : c ≠ '^' := hpre c (by simp)
    have hcs : ∀ x ∈ cs, x ≠ '^' := fun x hx => hpre x (by simp [hx])
    have hstart : listStartsWith (c :: (cs ++ l)) tmplPre = false := by
      simp only [tmplPre, listStartsWith]
      simp [beq_eq_false_iff_ne, hc]
    rw [List.cons_append]
    rw [renderTmpl]
    rw [if_neg (by simp [hstart])]
    rw [ih hcs]
    cases renderTmpl subs l <;> simp [Except.map]

theorem splitBeforeSeq_exact (mid rest : List Char) (hmid : ∀ c ∈ mid, c ≠ '^') :
    splitBeforeSeq tmplSuf (mid ++ tmplSuf ++ rest) = some (mid, rest) := by
  induction mid with
  | nil =>
    show splitBeforeSeq tmplSuf ('^' :: '>' :: '>' :: '^' :: rest) = some ([], rest)
    rw [splitBeforeSeq]
    rw [if_pos (by simp [listStartsWith, tmplSuf])]
    simp [tmplSuf]
  | cons c cs ih =>
    have hc : c ≠ '^' := hmid c (by simp)
    have hcs : ∀ x ∈ cs, x ≠ '^' := fun x hx => hmid x (by simp [hx])
    have hstart : listStartsWith (c :: (cs ++ tmplSuf ++ rest)) tmplSuf = false := by
      simp only [tmplSuf, listStartsWith]
      simp [beq_eq_false_iff_ne, hc]
    have hstart2 : listStartsWith (c :: (cs ++ (tmplSuf ++ rest))) tmplSuf = false := by
      rw [← List.append_assoc]
      exact hstart
    show splitBeforeSeq tmplSuf (c :: (cs ++ tmplSuf ++ rest)) = some (c :: cs, rest)
    rw [splitBeforeSeq]
    rw [if_neg (by simp [hstart2])]
    rw [ih hcs]

theorem renderTmpl_missing_token (subs : List (String × String)) (nameChars rest : List Char)
    (hnm : ∀ c ∈ nameChars, c ≠ '^')
    (hlookup : recordLookup subs (String.mk nameChars) = none) :
    renderTmpl subs (tmplPre ++ tmplSym :: nameChars ++ tmplSuf ++ rest) =
      .error (String.mk nameChars ++ " is not defined") := by
  have hmid : ∀ c ∈ ('=' :: nameChars : List Char), c ≠ '^' := by
    intro c hc
    rcases List.mem_cons.mp hc with h | h
    · rw [h]
      decide
    · exact hnm c h
  have hsplit : splitBeforeSeq tmplSuf (('=' :: nameChars) ++ tmplSuf ++ rest) =
      some ('=' :: nameChars, rest) := splitBeforeSeq_exact _ _ hmid
  have hsym : tmplSym = '=' := rfl
  rw [hsym]
  show renderTmpl subs
      ('^' :: '<' :: '<' :: '^' :: (('=' :: nameChars) ++ tmplSuf ++ rest)) = _
  rw [renderTmpl]
  rw [if_pos (by simp [listStartsWith, tmplPre])]
  have hdrop : ('^' :: '<' :: '<' :: '^' :: (('=' :: nameChars) ++ tmplSuf ++ rest)).drop
      tmplPre.length = ('=' :: nameChars) ++ tmplSuf ++ rest := by
    simp [tmplPre]
  rw [← hdrop] at hsplit
  split
  next tok post heq =>
    rw [hsplit] at heq
    have h1 : '=' :: nameChars = tok := by
      have h := Option.some.inj heq
      exact congrArg Prod.fst h
    have h2 : rest = post := by
      have h := Option.some.inj heq
      exact congrArg Prod.snd h
    subst h2
    subst h1
    simp [hlookup]
  next heq =>
    rw [hsplit] at heq
    cases heq

theorem renderTmpl_clean (subs : List (String × String)) (l : List Char)
    (h : ∀ c ∈ l, c ≠ '^') : renderTmpl subs l = .ok l := by
  have happ := renderTmpl_append_clean subs l [] h
  rw [List.append_nil] at happ
  rw [happ, renderTmpl]
  simp [Except.map]

theorem recordLookup_eq_none (l : List (String × String)) (k : String)
    (h : ∀ pr ∈ l, pr.1 ≠ k) : recordLookup l k = none := by
  unfold recordLookup
  have : l.reverse.find? (fun pr => pr.1 == k) = none := by
    rw [List.find?_eq_none]
    intro pr hpr
    simp [beq_eq_false_iff_ne, h pr (List.mem_reverse.mp hpr)]
  rw [this]
  rfl

/-- C3, counterexample: an artifact whose substitution list holds a pair with
no matching emitted asset renders **successfully** when the placeholder of
the pair does not occur in the text of the artifact — the lookup miss is
silently dropped, so the claim that any such pair fails the render of the
artifact is refuted. -/
theorem missing_asset_without_occurrence_renders_ok :
    (renderOneCssFile []
        { publicPath := none, url := none }
        { id := "/s/a.css", emitName := "a.css", emitFileName := "a.css",
          emitDefaultName := "a.css", substitutions := [("_p", "/dep.png")] }
        "body" = .ok "body") ∧
    ([] : List EmittedAssetFileMeta).find? (fun am => am.id == "/dep.png") = none := by
  constructor
  · unfold renderOneCssFile renderCssFile
    rw [renderTmpl_clean _ _ (by decide)]
    rfl
  · rfl

/-- C3, amended: for a style artifact and a substitution pair whose dependency
id matches no emitted asset, **provided the placeholder of the pair actually
occurs as a template token in the text of the artifact**, the render of the
whole artifact fails with an error naming the artifact (and embedding the
unresolved placeholder token), and the emitted bytes are left untouched —
no partial substitution is written (pairs whose placeholder does not occur in
the text are silently dropped instead). -/
theorem missing_asset_fails_whole_render
    (assets : List EmittedAssetFileMeta) (opts : RenderOptionsM)
    (cssMeta : EmittedCssFileMeta) (p d source : String) (pre post : List Char)
    (hpair : (p, d) ∈ cssMeta.substitutions)
    (hmiss : ∀ q ∈ cssMeta.substitutions, q.1 = p → ∀ am ∈ assets, am.id ≠ q.2)
    (hpre : ∀ c ∈ pre, c ≠ '^') (hname : ∀ c ∈ p.data, c ≠ '^')
    (hsrc : source = String.mk (pre ++ (tmplPre ++ tmplSym :: p.data ++ tmplSuf ++ post))) :
    renderOneCssFile assets opts cssMeta source =
      .error (artifactRenderError cssMeta.emitFileName (p ++ " is not defined")) ∧
    renderedBundleSource assets opts cssMeta source = source := by
  have hlook : recordLookup (computedSubstitutions assets opts cssMeta) p = none := by
    apply recordLookup_eq_none
    intro pr hpr hk
    rcases List.mem_filterMap.mp hpr with ⟨q, hq, hmap⟩
    cases hfind : assets.find? (fun am => am.id == q.2) with
    | none =>
      rw [hfind] at hmap
      cases hmap
    | some am =>
      rw [hfind] at hmap
      cases hmap
      have hq1 : q.1 = p := hk
      have ham : am ∈ assets := List.mem_of_find?_eq_some hfind
      have hameq : am.id = q.2 := by
        have := List.find?_some hfind
        simpa [beq_iff_eq] using this
      exact hmiss q hq hq1 am ham hameq
  have hpstr : String.mk p.data = p := rfl
  have hrender : renderTmpl (computedSubstitutions assets opts cssMeta) source.data =
      .error (p ++ " is not defined") := by
    rw [hsrc]
    show renderTmpl _ (pre ++ (tmplPre ++ tmplSym :: p.data ++ tmplSuf ++ post)) = _
    rw [renderTmpl_append_clean _ _ _ hpre]
    rw [renderTmpl_missing_token _ _ _ hname (by rw [hpstr]; exact hlook)]
    rfl
  have hone : renderOneCssFile assets opts cssMeta source =
      .error (artifactRenderError cssMeta.emitFileName (p ++ " is not defined")) := by
    unfold renderOneCssFile renderCssFile
    rw [hrender]
    rfl
  refine ⟨hone, ?_⟩
  unfold renderedBundleSource
  rw [hone]

/-- C3 witness: the amended theorem applied to a concrete artifact whose text
contains the placeholder token `_p` for the unmatched dependency
`/dep.png`. -/
theorem missing_asset_fails_whole_render_witness :
    renderOneCssFile []
        { publicPath := none, url := none }
        { id := "/s/a.css", emitName := "a.css", emitFileName := "a.css",
          emitDefaultName := "a.css", substitutions := [("_p", "/dep.png")] }
        "body (^<<^=_p^>>^)" =
      .error (artifactRenderError "a.css" ("_p" ++ " is not defined")) ∧
    renderedBundleSource []
        { publicPath := none, url := none }
        { id := "/s/a.css", emitName := "a.css", emitFileName := "a.css",
          emitDefaultName := "a.css", substitutions := [("_p", "/dep.png")] }
        "body (^<<^=_p^>>^)" = "body (^<<^=_p^>>^)" :=
  missing_asset_fails_whole_render []
    { publicPath := none, url := none }
    { id := "/s/a.css", emitName := "a.css", emitFileName := "a.css",
      emitDefaultName := "a.css", substitutions := [("_p", "/dep.png")] }
    "_p" "/dep.png" "body (^<<^=_p^>>^)"
    "body (".data ")".data
    (by simp)
    (by
      intro q hq hq1 am ham
      simp at ham)
    (by decide) (by decide) (by decide)

/-- C5, counterexample: with `publicPath = "p/"` and a custom formatter that
returns its second argument unchanged, the substituted url is the bare
relative path — the formatter was handed the relative url, **not** the
default `publicPath + relativePath` url the claim describes. -/
theorem url_formatter_receives_relative_not_default :
    computeFinalUrl
        { publicPath := some "p/", url := some (fun _ u => u) }
        { id := "/s/main.css", emitName := "main.css", emitFileName := "main.css",
          emitDefaultName := "main.css", substitutions := [] }
        { id := "/s/img.png", emitName := "img.png", emitFileName := "assets/img.png",
          emitDefaultName := "img.png" } = "assets/img.png" ∧
    "assets/img.png" ≠ "p/" ++ "assets/img.png" := by
  constructor
  · rfl
  · decide

/-- C5, amended: without a custom formatter the substituted url is
`publicPath` (empty when unset) concatenated with the slash-normalized
relative path from the output directory of the artifact to the final output
path of the asset; a configured custom formatter is called with the full metadata
of both files (which includes `publicPath`) **plus the bare relative url**
(not the publicPath-prefixed default), and its return value is used
instead. -/
theorem final_url_computation
    (opts : RenderOptionsM) (cssMeta : EmittedCssFileMeta)
    (assetMeta : EmittedAssetFileMeta) (f : AssetUrlInfoM → String → String) :
    (opts.url = none →
      computeFinalUrl opts cssMeta assetMeta =
        (opts.publicPath.getD "") ++ resolvedUrlOf cssMeta.emitFileName assetMeta.emitFileName) ∧
    (opts.url = some f →
      computeFinalUrl opts cssMeta assetMeta =
        f (mkAssetUrlInfo opts cssMeta assetMeta)
          (resolvedUrlOf cssMeta.emitFileName assetMeta.emitFileName)) := by
  constructor
  · intro h
    unfold computeFinalUrl
    rw [h]
  · intro h
    unfold computeFinalUrl
    rw [h]

/-- C5 witness: the amended url theorem applied to a concrete artifact pair,
once without a formatter (yielding `p/assets/img.png`) and once with a
formatter that prepends `Q` to the relative url it receives. -/
theorem final_url_computation_witness :
    computeFinalUrl
        { publicPath := some "p/", url := none }
        { id := "/s/main.css", emitName := "main.css", emitFileName := "main.css",
          emitDefaultName := "main.css", substitutions := [] }
        { id := "/s/img.png", emitName := "img.png", emitFileName := "assets/img.png",
          emitDefaultName := "img.png" } = "p/assets/img.png" ∧
    computeFinalUrl
        { publicPath := some "p/", url := some (fun _ u => "Q" ++ u) }
        { id := "/s/main.css", emitName := "main.css", emitFileName := "main.css",
          emitDefaultName := "main.css", substitutions := [] }
        { id := "/s/img.png", emitName := "img.png", emitFileName := "assets/img.png",
          emitDefaultName := "img.png" } = "Qassets/img.png" := by
  constructor
  · have h := (final_url_computation
      { publicPath := some "p/", url := none }
      { id := "/s/main.css", emitName := "main.css", emitFileName := "main.css",
        emitDefaultName := "main.css", substitutions := [] }
      { id := "/s/img.png", emitName := "img.png", emitFileName := "assets/img.png",
        emitDefaultName := "img.png" } (fun _ u => u)).1 rfl
    rw [h]
    rfl
  · have h := (final_url_computation
      { publicPath := some "p/", url := some (fun _ u => "Q" ++ u) }
      { id := "/s/main.css", emitName := "main.css", emitFileName := "main.css",
        emitDefaultName := "main.css", substitutions := [] }
      { id := "/s/img.png", emitName := "img.png", emitFileName := "assets/img.png",
        emitDefaultName := "img.png" } (fun _ u => "Q" ++ u)).2 rfl
    rw [h]
    rfl

end RollupCss
